import Mathlib

/-
  Verification development for the wopmars workflow engine.

  Shallow embedding of the core data model and operations:
  * `wopmars/models/Rule.py`                                  (rule model, freshness, DAG edges, facade)
  * `src/main/fr/tagc/wopmars/framework/parsing/Reader.py`    (definition loading, grammar check, binding)
  * `src/main/fr/tagc/wopmars/framework/rule/ToolWrapper.py`  (content check)
  * `wopmars/main/tagc/framework/bdd/WopMarsSession.py`       (session, get_or_create, commit)

  Python machine-level conventions used throughout:
  * a Python `list` is a Lean `List`;
  * a Python `dict` is an association list with distinct keys, looked up with `List.lookup`;
  * exceptions are `Except` errors; an uncaught Python `NameError` / `TypeError` /
    `KeyError` / `IndexError` is a dedicated error constructor;
  * epoch-millisecond timestamps are `Int`.
-/

set_option maxRecDepth 4000

namespace WopMars

/-- A row of `wom_file` (class `FileInputOutputInformation`): a named file bound to a
rule.  `type` is the name of the associated `TypeInputOrOutput` row, the string
`"input"` or `"output"` (the code always compares `f.type.name` with these literals). -/
structure FileInputOutputInformation where
  name : String
  path : String
  type : String
deriving DecidableEq, Repr

/-- A row of `wom_table` (class `TableInputOutputInformation`): a named table bound to a
rule.  `model` is the dotted model identifier (`t.model`), `tablename` the declared
logical name (`t.tablename`), `type` as for files, and `modification_time` the
`time` field of the associated `ModificationTable` row (`t.modification.time`). -/
structure TableInputOutputInformation where
  tablename : String
  model : String
  type : String
  modification_time : Int
deriving DecidableEq, Repr

/-- A row of `wom_option` (class `Option` in the source; renamed here to avoid the
Lean `Option` type): a `(name, value)` pair bound to a rule. -/
structure OptionRow where
  name : String
  value : String
deriving DecidableEq, Repr

/-- The `Rule` model of `wopmars/models/Rule.py` restricted to the attributes the
verified operations read.  `cls` stands for the Python class of the wrapper object
(`self.__class__`, used by `isinstance` in `__eq__`); `specify_params` is the
developer-overridden `specify_params()` declaration, as data. -/
structure Rule where
  name : String
  cls : String
  files : List FileInputOutputInformation
  tables : List TableInputOutputInformation
  options : List OptionRow
  specify_params : List (String × String)
deriving DecidableEq, Repr

/-- `Rule.follows` (Rule.py lines 258-282): `self` follows `other` iff some input file
path of `self` equals some output file path of `other`, or some input table model of
`self` equals some output table model of `other`.  The two nested Python loops with an
early `return True` are the two `any`-`any` scans below. -/
def Rule.follows (self other : Rule) : Bool :=
  ((self.files.filter (fun f => f.type == "input")).map (fun f => f.path)).any
    (fun rule_f_path =>
      ((other.files.filter (fun f => f.type == "output")).map (fun f => f.path)).any
        (fun rule_f2_path => rule_f_path == rule_f2_path))
  || ((self.tables.filter (fun t => t.type == "input")).map (fun t => t.model)).any
    (fun rule_t_name =>
      ((other.tables.filter (fun t => t.type == "output")).map (fun t => t.model)).any
        (fun rule_t2_name => rule_t_name == rule_t2_name))

/-- The list `[os_path_getmtime_ms(f.path) for f in self.files if f.type.name == "input"]
+ [t.modification.time for t in self.tables if t.type.name == "input"]` of Rule.py line
431-432.  The file-mtime helper `os_path_getmtime_ms` is repository code that is not
under src/; modelled from the spec ("mtime of every input file") as the parameter
`mtime`, an assignment of an epoch-millisecond time to every path. -/
def Rule.input_times (mtime : String → Int) (self : Rule) : List Int :=
  ((self.files.filter (fun f => f.type == "input")).map (fun f => mtime f.path))
  ++ ((self.tables.filter (fun t => t.type == "input")).map (fun t => t.modification_time))

/-- The corresponding output list of Rule.py lines 433-434. -/
def Rule.output_times (mtime : String → Int) (self : Rule) : List Int :=
  ((self.files.filter (fun f => f.type == "output")).map (fun f => mtime f.path))
  ++ ((self.tables.filter (fun t => t.type == "output")).map (fun t => t.modification_time))

/-- `Rule.is_output_more_recent_than_input` (Rule.py lines 422-436):
`max(input times) < min(output times)`.  Python's `max`/`min` raise `ValueError` on an
empty sequence; that outcome is `none`. -/
def Rule.is_output_more_recent_than_input (mtime : String → Int) (self : Rule) :
    Option Bool :=
  match (Rule.input_times mtime self).max?, (Rule.output_times mtime self).min? with
  | some most_recent_input, some oldest_output =>
    some (decide (most_recent_input < oldest_output))
  | _, _ => none

/-- `Rule.does_output_exist` (Rule.py lines 468-484): every output file exists on the
filesystem and every output table is non-empty.  The filesystem is the parameter
`path_exists` (`os.path.exists`), and `row_count m` is the row count that
`session.query(ot.get_table()).count()` returns for the table of model `m`. -/
def Rule.does_output_exist (path_exists : String → Bool) (row_count : String → Nat)
    (self : Rule) : Bool :=
  (self.files.filter (fun f => f.type == "output")).all (fun of => path_exists of.path)
  && (self.tables.filter (fun t => t.type == "output")).all
      (fun ot => row_count ot.model != 0)

/-- The wopmars exception kinds raised by the facade accessors and during option
lookup.  `undeclaredAccess` is the `WopMarsException` "... has not been specified";
`keyError` is an uncaught Python `KeyError`. -/
inductive FacadeErr where
  | undeclaredAccess
  | keyError
deriving DecidableEq, Repr

/-- `Rule.input_file` (Rule.py lines 704-716): first `f.path` with `f.name == key` and
`f.type.name == "input"`; an `IndexError` on the empty selection is turned into a
`WopMarsException` (UndeclaredAccess). -/
def Rule.input_file (self : Rule) (key : String) : Except FacadeErr String :=
  match (self.files.filter (fun f => f.name == key && f.type == "input")).map
      (fun f => f.path) with
  | p :: _ => .ok p
  | [] => .error .undeclaredAccess

/-- `Rule.input_table` (Rule.py lines 718-730): first table with `t.tablename == key`
and `t.type.name == "input"`; `.get_table()` resolves the model identifier, so the
returned handle is represented by `t.model`. -/
def Rule.input_table (self : Rule) (key : String) : Except FacadeErr String :=
  match self.tables.filter (fun t => t.tablename == key && t.type == "input") with
  | t :: _ => .ok t.model
  | [] => .error .undeclaredAccess

/-- `Rule.output_file` (Rule.py lines 732-744), as `input_file` with type "output". -/
def Rule.output_file (self : Rule) (key : String) : Except FacadeErr String :=
  match (self.files.filter (fun f => f.name == key && f.type == "output")).map
      (fun f => f.path) with
  | p :: _ => .ok p
  | [] => .error .undeclaredAccess

/-- `Rule.output_table` (Rule.py lines 746-758), as `input_table` with type "output". -/
def Rule.output_table (self : Rule) (key : String) : Except FacadeErr String :=
  match self.tables.filter (fun t => t.tablename == key && t.type == "output") with
  | t :: _ => .ok t.model
  | [] => .error .undeclaredAccess

/-- `Rule.option` (Rule.py lines 760-784).  The `IndexError` of
`[o.value for o in self.options if o.name == key][0]` on an unknown name is caught and
`None` is returned.  When a value is found, `self.specify_params()[key]` is read: a
`KeyError` there is NOT caught by the `except IndexError` handler.  The subsequent
cast loop (`Option.static_option_castable`, not under src/) maps the value inside its
own type; values being plain strings here, the cast leaves the value unchanged. -/
def Rule.option (self : Rule) (key : String) : Except FacadeErr (Option String) :=
  match (self.options.filter (fun o => o.name == key)).map (fun o => o.value) with
  | [] => .ok none
  | value :: _ =>
    match self.specify_params.lookup key with
    | none => .error .keyError
    | some _carac => .ok (some value)

/-- `Rule.same_files` (Rule.py lines 526-542).  `abspath` stands for
`os.path.abspath`. -/
def Rule.same_files (abspath : String → String) (self other : Rule)
    (type_name : String) : Bool :=
  (self.files.filter (fun rf => rf.type == type_name)).all (fun f =>
    !((other.files.filter (fun rf =>
        abspath f.path == abspath rf.path
        && f.name == rf.name
        && rf.type == type_name)).isEmpty))

/-- `Rule.same_tables` (Rule.py lines 544-560), translated with the Python scoping kept
intact: the inner list comprehension re-binds `t`, shadowing the outer loop variable,
so `t.model == t.model` and `t.tablename == t.tablename` compare each candidate of
`other.tables` with ITSELF, and only `t.type.name == type_name` is effective. -/
def Rule.same_tables (self other : Rule) (type_name : String) : Bool :=
  (self.tables.filter (fun t => t.type == type_name)).all (fun t =>
    !((other.tables.filter (fun t =>
        t.model == t.model
        && t.type == type_name
        && t.tablename == t.tablename)).isEmpty))

/-- `Rule.same_options` (Rule.py lines 562-576). -/
def Rule.same_options (self other : Rule) : Bool :=
  self.options.all (fun opt =>
    !((other.options.filter (fun o =>
        o.name == opt.name && o.value == opt.value)).isEmpty))

/-- `Rule.__eq__` (Rule.py lines 510-524).  `isinstance(other, self.__class__)` is the
class comparison `self.cls == other.cls`. -/
def Rule.eqOp (abspath : String → String) (self other : Rule) : Bool :=
  (self.cls == other.cls)
  && Rule.same_files abspath self other "input"
  && Rule.same_tables self other "input"
  && Rule.same_files abspath self other "output"
  && Rule.same_tables self other "output"
  && Rule.same_options self other

/-! ## Reader pipeline (`framework/parsing/Reader.py`)

The model of `Reader.read` works on a definition that is already past YAML parsing,
as a list of rule entries in document order.  Each entry records what the binding
steps of `Reader.read` / `Reader.create_toolwrapper_entry` observe about it:

* `name` — the rule name (the identifier after the `rule` keyword; the regex
  extraction `re.findall(r"rule (.+?):", file)` of `check_duplicate_rules` yields
  exactly these names for a definition file of this shape);
* `tool_exists` — whether `importlib.import_module` / the attribute lookup of
  `create_toolwrapper_entry` resolves the declared tool (the Python module path is
  outside the embedding);
* the bound and declared input/output file variable names read by
  `ToolWrapper.is_content_respected`.

The database state tracked is the set of committed `wom_rule` rows (the claims under
verification are about rule rows; `ModificationTable` rows written by `get_or_create`
during binding are not rule rows and are not tracked here). -/

/-- One rule entry of the parsed definition document together with the outcome-relevant
facts about its tool. -/
structure RuleDefn where
  name : String
  tool_exists : Bool
  input_file_names : List String
  output_file_names : List String
  get_input_file : List String
  get_output_file : List String
deriving DecidableEq, Repr

/-- The committed `wom_rule` rows of the persistence layer, by rule name. -/
structure WomDB where
  rules : List String
deriving DecidableEq, Repr

/-- The `WopMarsException` kinds that `Reader.load_definition_file` / `Reader.read`
raise in this model: a duplicated rule name, an unresolvable tool, and a content
violation from `is_content_respected`. -/
inductive ReaderErr where
  | duplicateRule
  | toolNotFound
  | contentViolation
deriving DecidableEq, Repr

/-- `Reader.check_duplicate_rules` (Reader.py lines 117-146): walk the extracted rule
names keeping a `seen` set, raising on the first name already seen. -/
def Reader.check_duplicate_rules : List String → List String → Except ReaderErr Unit
  | [], _ => .ok ()
  | r :: rest, seen =>
    if seen.contains r then .error .duplicateRule
    else Reader.check_duplicate_rules rest (r :: seen)

/-- Set equality of two Python key collections, `set(xs) == set(ys)`. -/
def pySetEq (xs ys : List String) : Bool :=
  xs.all (fun x => ys.contains x) && ys.all (fun y => xs.contains y)

/-- `ToolWrapper.is_content_respected` (ToolWrapper.py lines 28-68):
`is_options_respected` is `pass`; `is_input_respected` compares the keys of the bound
input file dict with `get_input_file()` as sets, `is_output_respected` likewise for
outputs. -/
def ToolWrapper.is_content_respected (r : RuleDefn) : Bool :=
  pySetEq r.input_file_names r.get_input_file
  && pySetEq r.output_file_names r.get_output_file

/-- The per-rule `create_toolwrapper_entry` calls of the loop in `Reader.read`
(Reader.py lines 254-331): the first rule whose tool does not resolve aborts with a
`WopMarsException`.  No `wom_rule` row is committed by this loop (the wrapper entries
are only added to the session by the later `add_all`). -/
def Reader.bind_all : List RuleDefn → Except ReaderErr Unit
  | [] => .ok ()
  | r :: rest => if r.tool_exists then Reader.bind_all rest else .error .toolNotFound

/-- The `for tw in set_wrapper: tw.is_content_respected()` loop of `Reader.read`
(Reader.py lines 342-343): the first content violation raises. -/
def Reader.check_content_all : List RuleDefn → Except ReaderErr Unit
  | [] => .ok ()
  | r :: rest =>
    if ToolWrapper.is_content_respected r then Reader.check_content_all rest
    else .error .contentViolation

/-- `Reader.read` (Reader.py lines 231-348), as a function from the definition and the
current database to the raised exception (if any) and the final database:

1. `load_definition_file` runs `check_duplicate_rules` first (Reader.py line 77),
   before any binding or persistence;
2. the rules loop builds a wrapper entry per rule (`create_toolwrapper_entry`; a
   missing tool raises here, leaving the rule table untouched);
3. `session.add_all(set_wrapper); session.commit()` (lines 339-341) commits every
   rule row;
4. only then does the loop at lines 342-343 run `is_content_respected` on each
   wrapper; a violation raises, and nothing rolls the committed rows back (the
   `except` clause at line 345 catches only `NoResultFound`). -/
def Reader.read (defn : List RuleDefn) (db : WomDB) : Except ReaderErr Unit × WomDB :=
  match Reader.check_duplicate_rules (defn.map (fun r => r.name)) [] with
  | .error e => (.error e, db)
  | .ok () =>
    match Reader.bind_all defn with
    | .error e => (.error e, db)
    | .ok () =>
      let db' : WomDB := { rules := db.rules ++ defn.map (fun r => r.name) }
      match Reader.check_content_all defn with
      | .error e => (.error e, db')
      | .ok () => (.ok (), db')

/-! ## Session layer (`framework/bdd/WopMarsSession.py`)

Entities are rows of an arbitrary model: a model name together with an association
list of field values.  A SQLAlchemy session autoflushes before a query, so pending
(added) objects are visible to `query(...).filter_by(...)`; the model therefore keeps
one entity list for the session's view of the database. -/

/-- A Python value stored in an entity field or passed as a keyword argument.
`clause` marks a SQLAlchemy `ClauseElement` (excluded from creation parameters by
`get_or_create`); stored rows only ever hold `lit` values. -/
inductive PyVal where
  | lit (n : Int)
  | clause (n : Nat)
deriving DecidableEq, Repr

/-- `isinstance(v, ClauseElement)`. -/
def PyVal.isClauseElement : PyVal → Bool
  | .clause _ => true
  | _ => false

/-- A persisted or pending ORM object: its model and its field assignment. -/
structure Entity where
  model : String
  fields : List (String × PyVal)
deriving DecidableEq, Repr

/-- The session's view of the data (committed rows and pending adds, in insertion
order, as a query sees them after autoflush). -/
structure DBSession where
  entities : List Entity
deriving DecidableEq, Repr

/-- Python `params = dict(base); params.update(upd)`: existing keys keep their
position but take the updated value, new keys of `upd` are appended. -/
def dictUpdate (base upd : List (String × PyVal)) : List (String × PyVal) :=
  (base.map (fun kv => (kv.1, ((upd.lookup kv.1).getD kv.2))))
  ++ upd.filter (fun kv => base.lookup kv.1 == none)

/-- `query(model).filter_by(**kwargs)` membership: the entity is of the queried model
and every keyword equals the stored field value. -/
def matchesLookup (e : Entity) (model : String) (kwargs : List (String × PyVal)) :
    Bool :=
  e.model == model
  && kwargs.all (fun kv => e.fields.lookup kv.1 == some kv.2)

/-- `WopMarsSession.get_or_create` (WopMarsSession.py lines 77-96):
`.first()` on the filtered query; if an instance exists return `(instance, False)`,
otherwise build `params` from the non-`ClauseElement` kwargs updated with `defaults`,
construct the entity, `session.add` it and return `(instance, True)`. -/
def WopMarsSession.get_or_create (s : DBSession) (model : String)
    (defaults : List (String × PyVal)) (kwargs : List (String × PyVal)) :
    (Entity × Bool) × DBSession :=
  match (s.entities.filter (fun e => matchesLookup e model kwargs)).head? with
  | some inst => ((inst, false), s)
  | none =>
    let params := dictUpdate (kwargs.filter (fun kv => !kv.2.isClauseElement)) defaults
    let inst : Entity := { model := model, fields := params }
    ((inst, true), { entities := s.entities ++ [inst] })

/-- The underlying SQLAlchemy session state read by `WopMarsSession.something`:
its pending inserts (`session.new`) and pending updates (`session.dirty`). -/
structure ORMSession where
  new : List Entity
  dirty : List Entity
deriving DecidableEq, Repr

/-- The `SQLManager` singleton's observable state: the committed database and how
many times its lock-guarded `commit` ran. -/
structure SQLManagerState where
  db : List Entity
  commit_count : Nat
deriving DecidableEq, Repr

/-- `WopMarsSession.something` (WopMarsSession.py lines 74-75):
`bool(self.__session.new) or bool(self.__session.dirty)` — a Python list is truthy
iff non-empty. -/
def WopMarsSession.something (s : ORMSession) : Bool :=
  !s.new.isEmpty || !s.dirty.isEmpty

/-- Modelled from the spec: `SQLManager.commit` is not under src/ (only its caller
`WopMarsSession.commit` is).  Per the spec it validates the session's pending changes
on the database under the shared lock; here it flushes the pending objects into the
database and counts the lock-guarded commit. -/
def SQLManager.commit (m : SQLManagerState) (s : ORMSession) :
    SQLManagerState × ORMSession :=
  ({ db := m.db ++ s.new ++ s.dirty, commit_count := m.commit_count + 1 },
   { new := [], dirty := [] })

/-- `WopMarsSession.commit` (WopMarsSession.py lines 24-36): only when `something()`
is the manager's commit invoked. -/
def WopMarsSession.commit (s : ORMSession) (m : SQLManagerState) :
    ORMSession × SQLManagerState :=
  if WopMarsSession.something s then
    ((SQLManager.commit m s).2, (SQLManager.commit m s).1)
  else (s, m)

/-! ## Grammar validator (`Reader.is_grammar_respected`, Reader.py lines 462-578)

The parsed YAML document is a tree of mappings (string keys, as produced for the
definition-file grammar), sequences, scalars and nulls.  The validator is embedded
with Python's runtime semantics kept visible:

* a `for x in v` loop iterates a mapping's keys, a sequence's items, or a string's
  characters, and raises `TypeError` on an int or `None`;
* `v[k]` subscription raises `TypeError` / `KeyError` / `IndexError` as Python does;
* `re.search` on a non-string raises `TypeError`;
* the local variable `s_variable_name` is assigned only by the `files` loop (line
  545); the error message of the `tables` branch (line 558) reads it, so a non-string
  tables entry raises `UnboundLocalError` when no files entry was iterated earlier in
  the same call. -/

/-- A parsed YAML value. -/
inductive YVal where
  | s (v : String)
  | i (v : Int)
  | null
  | list (items : List YVal)
  | map (entries : List (String × YVal))

/-- Outcomes of `is_grammar_respected`: `violation` is the declared
`WopMarsException` (grammar violation / multiple tools / missing tool); the other
constructors are undeclared Python exceptions escaping the validator. -/
inductive GrammarErr where
  | violation
  | unboundLocalError
  | typeError
  | keyError
  | indexError
deriving DecidableEq, Repr

/-- Python whitespace class `\s` of the `re` module. -/
def isPyWhitespace (c : Char) : Bool :=
  c == ' ' || c == '\t' || c == '\n' || c == '\r' || c == '\x0b' || c == '\x0c'

/-- `regex_step1 = re.compile(r"(^rule [^\s]+$)")`, applied with `.search`: the whole
string is `rule ` followed by at least one non-whitespace character and nothing
else. -/
def regex_step1_matches (key : String) : Bool :=
  match key.toList with
  | 'r' :: 'u' :: 'l' :: 'e' :: ' ' :: rest =>
    !rest.isEmpty && rest.all (fun c => !isPyWhitespace c)
  | _ => false

/-- `regex_step2 = re.compile(r"(^params$)|(^tool$)|(^input$)|(^output$)")` under
`.search`: exact match of one alternative. -/
def regex_step2_matches (key : String) : Bool :=
  key == "params" || key == "tool" || key == "input" || key == "output"

/-- `regex_step3 = re.compile(r"(^files$)|(^tables$)")` under `.search`. -/
def regex_step3_matches (key : String) : Bool :=
  key == "files" || key == "tables"

/-- Python iteration `for x in v`, yielding the iterated sequence: a mapping's keys,
a sequence's items, a string's characters; `TypeError` on an int or `None`. -/
def pyIter : YVal → Except GrammarErr (List YVal)
  | .map es => .ok (es.map (fun e => .s e.1))
  | .list xs => .ok xs
  | .s v => .ok (v.toList.map (fun c => .s (String.singleton c)))
  | .i _ => .error .typeError
  | .null => .error .typeError

/-- Python subscription `v[k]` for the shapes reachable in the validator: a mapping
looked up by a (hashable) key, a sequence indexed by an int with negative indexing,
and the `TypeError`s of the remaining combinations. -/
def pySubscript : YVal → YVal → Except GrammarErr YVal
  | .map es, .s k =>
    match es.lookup k with
    | some v => .ok v
    | none => .error .keyError
  | .map _, .i _ => .error .keyError
  | .map _, .null => .error .keyError
  | .map _, .list _ => .error .typeError
  | .map _, .map _ => .error .typeError
  | .list xs, .i n =>
    let idx : Int := if n < 0 then (xs.length : Int) + n else n
    if 0 ≤ idx then
      match xs.get? idx.toNat with
      | some x => .ok x
      | none => .error .indexError
    else .error .indexError
  | .list _, _ => .error .typeError
  | .s _, _ => .error .typeError
  | .i _, _ => .error .typeError
  | .null, _ => .error .typeError

/-- The `tables` loop (Reader.py lines 554-561): `for s_tablename in v`, raising on a
non-string entry — but the message interpolates `str(s_variable_name)`, so when
`s_variable_name` was never bound (`varBound = false`) the raise itself dies with
`UnboundLocalError`. -/
def checkTablesItems (varBound : Bool) : List YVal → Except GrammarErr Unit
  | [] => .ok ()
  | .s _ :: rest => checkTablesItems varBound rest
  | _ :: _ => if varBound then .error .violation else .error .unboundLocalError

/-- The body of the `files` loop (Reader.py lines 545-552): for each iterated
`s_variable_name`, subscript the files value by it and require a string. -/
def checkFilesItems (v3 : YVal) : List YVal → Except GrammarErr Unit
  | [] => .ok ()
  | item :: rest =>
    match pySubscript v3 item with
    | .error e => .error e
    | .ok (.s _) => checkFilesItems v3 rest
    | .ok _ => .error .violation

/-- The `s_key_step3` loop over an `input`/`output` value `v2` (Reader.py lines
535-561).  Returns the updated `s_variable_name` boundness together with the
outcome; the files loop binds `s_variable_name` whenever it iterates at least
once. -/
def checkStep3 (v2 : YVal) (varBound : Bool) :
    List YVal → Bool × Except GrammarErr Unit
  | [] => (varBound, .ok ())
  | k :: rest =>
    match k with
    | .s s3 =>
      if !regex_step3_matches s3 then (varBound, .error .violation)
      else if s3 == "files" then
        match pySubscript v2 (.s "files") with
        | .error e => (varBound, .error e)
        | .ok v3 =>
          match pyIter v3 with
          | .error e => (varBound, .error e)
          | .ok items =>
            let varBound' := if items.isEmpty then varBound else true
            match checkFilesItems v3 items with
            | .ok () => checkStep3 v2 varBound' rest
            | .error e => (varBound', .error e)
      else
        match pySubscript v2 (.s "tables") with
        | .error e => (varBound, .error e)
        | .ok v3 =>
          match pyIter v3 with
          | .error e => (varBound, .error e)
          | .ok items =>
            match checkTablesItems varBound items with
            | .ok () => checkStep3 v2 varBound rest
            | .error e => (varBound, .error e)
    | _ => (varBound, .error .typeError)

/-- The `s_key_step2` loop over a rule value `v1` (Reader.py lines 523-570), threading
`s_variable_name` boundness and the `bool_toolwrapper` flag. -/
def checkStep2 (v1 : YVal) (varBound toolSeen : Bool) :
    List YVal → Bool × Bool × Except GrammarErr Unit
  | [] => (varBound, toolSeen, .ok ())
  | k :: rest =>
    match k with
    | .s s2 =>
      if !regex_step2_matches s2 then (varBound, toolSeen, .error .violation)
      else if s2 == "input" || s2 == "output" then
        match pySubscript v1 (.s s2) with
        | .error e => (varBound, toolSeen, .error e)
        | .ok v2 =>
          match pyIter v2 with
          | .error e => (varBound, toolSeen, .error e)
          | .ok keys =>
            match checkStep3 v2 varBound keys with
            | (varBound', .ok ()) => checkStep2 v1 varBound' toolSeen rest
            | (varBound', .error e) => (varBound', toolSeen, .error e)
      else if s2 == "tool" then
        if toolSeen then (varBound, toolSeen, .error .violation)
        else checkStep2 v1 varBound true rest
      else checkStep2 v1 varBound toolSeen rest
    | _ => (varBound, toolSeen, .error .typeError)

/-- The top-level rules loop of `is_grammar_respected` (Reader.py lines 511-578):
each top-level key must match `regex_step1`, its value's keys are checked by
`checkStep2`, and every rule must contain a tool. -/
def checkRules (varBound : Bool) :
    List (String × YVal) → Except GrammarErr Unit
  | [] => .ok ()
  | (k1, v1) :: rest =>
    if !regex_step1_matches k1 then .error .violation
    else
      match pyIter v1 with
      | .error e => .error e
      | .ok keys =>
        match checkStep2 v1 varBound false keys with
        | (varBound', toolSeen, .ok ()) =>
          if toolSeen then checkRules varBound' rest else .error .violation
        | (_, _, .error e) => .error e

/-- `Reader.is_grammar_respected` on a parsed definition document (a top-level
mapping). -/
def Reader.is_grammar_respected (doc : List (String × YVal)) :
    Except GrammarErr Unit :=
  checkRules false doc

/-! ## Concrete fixtures for witnesses and counterexamples -/

/-- An mtime assignment giving every path the time 5. -/
def mtime5 : String → Int := fun _ => 5

/-- A rule with one input file and one output table whose modification time is 5:
with `mtime5` its newest input time equals its oldest output time. -/
def freshnessTieRule : Rule :=
  { name := "r", cls := "W",
    files := [{ name := "i", path := "/a", type := "input" }],
    tables := [{ tablename := "t", model := "m.M", type := "output",
                 modification_time := 5 }],
    options := [], specify_params := [] }

/-- A rule declaring no files, tables or options. -/
def bareRule : Rule :=
  { name := "r", cls := "W", files := [], tables := [], options := [],
    specify_params := [] }

/-- A rule with a single input table of model `A` named `x`. -/
def tableRuleA : Rule :=
  { name := "a", cls := "W", files := [],
    tables := [{ tablename := "x", model := "A", type := "input",
                 modification_time := 0 }],
    options := [], specify_params := [] }

/-- A rule with a single input table of model `B` named `y` — differing from
`tableRuleA` in both model and tablename. -/
def tableRuleB : Rule :=
  { name := "b", cls := "W", files := [],
    tables := [{ tablename := "y", model := "B", type := "input",
                 modification_time := 0 }],
    options := [], specify_params := [] }

/-- A definition entry whose tool resolves but whose bound input file names
(`{in2}`) differ from the tool's declared ones (`{in1}`): a content violation. -/
def contentViolRule : RuleDefn :=
  { name := "r1", tool_exists := true, input_file_names := ["in2"],
    output_file_names := [], get_input_file := ["in1"], get_output_file := [] }

/-- A definition entry whose declared tool does not resolve. -/
def missingToolRule : RuleDefn :=
  { name := "r1", tool_exists := false, input_file_names := [],
    output_file_names := [], get_input_file := [], get_output_file := [] }

/-- A well-formed definition entry. -/
def okRuleDefn : RuleDefn :=
  { name := "r0", tool_exists := true, input_file_names := [],
    output_file_names := [], get_input_file := [], get_output_file := [] }

/-- A parsed document with one rule whose `input` holds a `tables` sequence with a
non-string entry and no `files` entry: the input of the `s_variable_name` slip. -/
def badTablesDoc : List (String × YVal) :=
  [("rule x", .map [("input", .map [("tables", .list [.i 1])])])]

/-- The same malformed `tables` entry, but preceded by a `files` entry whose loop has
bound `s_variable_name`: here the raise goes through as the declared violation. -/
def filesThenBadTablesDoc : List (String × YVal) :=
  [("rule x", .map [("input", .map
      [("files", .map [("f1", .s "p")]), ("tables", .list [.i 1])])])]

/-! ## Helper lemmas -/

/-- In an association list with pairwise distinct keys, membership determines the
lookup result. -/
theorem lookup_of_mem_nodup (l : List (String × PyVal)) (k : String) (v : PyVal)
    (hmem : (k, v) ∈ l) (hnd : (l.map Prod.fst).Nodup) : l.lookup k = some v := by
  induction l with
  | nil => cases hmem
  | cons kv rest ih =>
    rw [List.map_cons, List.nodup_cons] at hnd
    rcases List.mem_cons.mp hmem with h | h
    · rw [← h]
      simp [List.lookup]
    · have hne : (k == kv.1) = false := by
        rw [beq_eq_false_iff_ne]
        intro he
        exact hnd.1 (he ▸ List.mem_map_of_mem Prod.fst h)
      simp only [List.lookup, hne]
      exact ih h hnd.2

/-- Looking up a key of `base` in the `dict(base)`-then-`update` image: the value is
the updated one when `upd` has the key, the original one otherwise. -/
theorem lookup_map_getD (upd : List (String × PyVal)) :
    ∀ (base tail : List (String × PyVal)) (k : String) (v : PyVal),
      base.lookup k = some v →
      ((base.map (fun kv => (kv.1, (upd.lookup kv.1).getD kv.2))) ++ tail).lookup k
        = some ((upd.lookup k).getD v) := by
  intro base
  induction base with
  | nil => intro tail k v h; simp [List.lookup] at h
  | cons kv rest ih =>
    intro tail k v h
    simp only [List.map_cons, List.cons_append]
    cases hk : (k == kv.1) with
    | true =>
      simp only [List.lookup, hk] at h ⊢
      rw [beq_iff_eq.mp hk]
      simp only [Option.some.injEq] at h
      rw [← h]
    | false =>
      simp only [List.lookup, hk] at h ⊢
      exact ih tail k v h

/-- The entity that `get_or_create` builds from clause-free lookup fields whose
shared keys agree with `defaults` satisfies the `filter_by` predicate of the very
same lookup. -/
theorem created_matches (model : String) (defaults kwargs : List (String × PyVal))
    (hnd : (kwargs.map Prod.fst).Nodup)
    (hcl : ∀ kv ∈ kwargs, kv.2.isClauseElement = false)
    (hag : ∀ kv ∈ kwargs, ∀ v, defaults.lookup kv.1 = some v → v = kv.2) :
    matchesLookup
      ⟨model, dictUpdate (kwargs.filter (fun kv => !kv.2.isClauseElement)) defaults⟩
      model kwargs = true := by
  have hfilter : kwargs.filter (fun kv => !kv.2.isClauseElement) = kwargs := by
    rw [List.filter_eq_self]
    intro kv hkv
    rw [hcl kv hkv]
    rfl
  unfold matchesLookup
  simp only [hfilter, beq_self_eq_true, Bool.true_and, List.all_eq_true]
  intro kv hkv
  have h1 : kwargs.lookup kv.1 = some kv.2 :=
    lookup_of_mem_nodup kwargs kv.1 kv.2 (by simpa using hkv) hnd
  have h2 := lookup_map_getD defaults kwargs
      (defaults.filter (fun kv => kwargs.lookup kv.1 == none)) kv.1 kv.2 h1
  show (List.lookup kv.1 (dictUpdate kwargs defaults) == some kv.2) = true
  rw [show dictUpdate kwargs defaults =
      (kwargs.map (fun kv => (kv.1, (defaults.lookup kv.1).getD kv.2)))
      ++ defaults.filter (fun kv => kwargs.lookup kv.1 == none) from rfl]
  rw [h2]
  cases hd : defaults.lookup kv.1 with
  | none => simp
  | some v =>
    rw [hag kv hkv v hd]
    simp

/-- `check_duplicate_rules` raises exactly the duplicate-rule error whenever the name
list has a repetition (or hits the accumulated `seen` set). -/
theorem check_duplicate_rules_error (l : List String) :
    ∀ (seen : List String), (¬ l.Nodup ∨ ∃ x ∈ l, x ∈ seen) →
      Reader.check_duplicate_rules l seen = .error .duplicateRule := by
  induction l with
  | nil =>
    intro seen h
    rcases h with h | ⟨x, hx, _⟩
    · exact absurd List.nodup_nil h
    · cases hx
  | cons r rest ih =>
    intro seen h
    rw [Reader.check_duplicate_rules]
    cases hc : seen.contains r with
    | true => simp
    | false =>
      simp only [Bool.false_eq_true, if_false]
      apply ih
      have hrseen : r ∉ seen := by
        intro hmem
        have he : List.elem r seen = true := List.elem_eq_true_of_mem hmem
        rw [show seen.contains r = List.elem r seen from rfl, he] at hc
        cases hc
      rcases h with h | ⟨x, hx, hxs⟩
      · rw [List.nodup_cons] at h
        push_neg at h
        by_cases hr : r ∈ rest
        · exact Or.inr ⟨r, hr, List.mem_cons_self r seen⟩
        · exact Or.inl (fun hnd => (h hr) hnd)
      · rcases List.mem_cons.mp hx with rfl | hx'
        · exact absurd hxs hrseen
        · exact Or.inr ⟨x, hx', List.mem_cons_of_mem r hxs⟩

/-- `check_duplicate_rules` passes on a repetition-free name list disjoint from
`seen`. -/
theorem check_duplicate_rules_ok (l : List String) :
    ∀ (seen : List String), l.Nodup → (∀ x ∈ l, x ∉ seen) →
      Reader.check_duplicate_rules l seen = .ok () := by
  induction l with
  | nil => intro seen _ _; rfl
  | cons r rest ih =>
    intro seen hnd hdisj
    rw [Reader.check_duplicate_rules]
    have hc : seen.contains r = false := by
      rw [Bool.eq_false_iff]
      intro hmem
      exact hdisj r (List.mem_cons_self r rest)
        (List.mem_of_elem_eq_true hmem)
    rw [List.nodup_cons] at hnd
    rw [hc]
    simp only [Bool.false_eq_true, if_false]
    apply ih _ hnd.2
    intro x hx
    rw [List.mem_cons]
    push_neg
    exact ⟨fun he => hnd.1 (he ▸ hx), hdisj x (List.mem_cons_of_mem r hx)⟩

/-- The wrapper-creation loop succeeds when every declared tool resolves. -/
theorem bind_all_ok (l : List RuleDefn) (h : ∀ r ∈ l, r.tool_exists = true) :
    Reader.bind_all l = .ok () := by
  induction l with
  | nil => rfl
  | cons r rest ih =>
    rw [Reader.bind_all, h r (List.mem_cons_self r rest)]
    simp only [if_true]
    exact ih (fun x hx => h x (List.mem_cons_of_mem r hx))

/-- The wrapper-creation loop raises when some declared tool does not resolve. -/
theorem bind_all_error (l : List RuleDefn) (h : ∃ r ∈ l, r.tool_exists = false) :
    Reader.bind_all l = .error .toolNotFound := by
  induction l with
  | nil => rcases h with ⟨r, hr, _⟩; cases hr
  | cons r rest ih =>
    rw [Reader.bind_all]
    cases hc : r.tool_exists with
    | false => simp
    | true =>
      simp only [if_true]
      apply ih
      rcases h with ⟨x, hx, hxf⟩
      rcases List.mem_cons.mp hx with rfl | hx'
      · rw [hc] at hxf; cases hxf
      · exact ⟨x, hx', hxf⟩

/-- The post-commit content loop passes when every rule's content is respected. -/
theorem check_content_all_ok (l : List RuleDefn)
    (h : ∀ r ∈ l, ToolWrapper.is_content_respected r = true) :
    Reader.check_content_all l = .ok () := by
  induction l with
  | nil => rfl
  | cons r rest ih =>
    rw [Reader.check_content_all, h r (List.mem_cons_self r rest)]
    simp only [if_true]
    exact ih (fun x hx => h x (List.mem_cons_of_mem r hx))

/-- The post-commit content loop raises when some rule's content is violated. -/
theorem check_content_all_error (l : List RuleDefn)
    (h : ∃ r ∈ l, ToolWrapper.is_content_respected r = false) :
    Reader.check_content_all l = .error .contentViolation := by
  induction l with
  | nil => rcases h with ⟨r, hr, _⟩; cases hr
  | cons r rest ih =>
    rw [Reader.check_content_all]
    cases hc : ToolWrapper.is_content_respected r with
    | false => simp
    | true =>
      simp only [if_true]
      apply ih
      rcases h with ⟨x, hx, hxf⟩
      rcases List.mem_cons.mp hx with rfl | hx'
      · rw [hc] at hxf; cases hxf
      · exact ⟨x, hx', hxf⟩

/-! ## Claim theorems -/

/-- C1: for every rule whose input and output time collections are non-empty (so
that Python's `max`/`min` are defined), `is_output_more_recent_than_input` returns
`True` exactly when the maximum input time is strictly below the minimum output
time, and in particular returns `False` when the two are equal (the rule re-runs on
a tie). -/
theorem C1_is_output_more_recent_than_input_strict (mtime : String → Int)
    (r : Rule) (i o : Int)
    (hI : (Rule.input_times mtime r).max? = some i)
    (hO : (Rule.output_times mtime r).min? = some o) :
    Rule.is_output_more_recent_than_input mtime r = some (decide (i < o))
    ∧ (Rule.is_output_more_recent_than_input mtime r = some true ↔ i < o)
    ∧ (i = o → Rule.is_output_more_recent_than_input mtime r = some false) := by
  rw [Rule.is_output_more_recent_than_input, hI, hO]
  refine ⟨rfl, by simp, ?_⟩
  intro h
  simp [h]

/-- Witness for C1 at a tie: `freshnessTieRule` has newest input time 5 and oldest
output time 5, and the evaluator answers `False`. -/
theorem C1_witness :
    (Rule.input_times mtime5 freshnessTieRule).max? = some 5
    ∧ (Rule.output_times mtime5 freshnessTieRule).min? = some 5
    ∧ Rule.is_output_more_recent_than_input mtime5 freshnessTieRule = some false := by
  refine ⟨rfl, rfl, ?_⟩
  exact (C1_is_output_more_recent_than_input_strict mtime5 freshnessTieRule 5 5
    rfl rfl).2.2 rfl

/-- C2 counterexample: a one-rule workflow whose tool resolves but whose bound input
file names violate the tool's declaration.  `Reader.read` raises the content
violation, yet the committed `wom_rule` rows are NOT rolled back: the rule row
remains, contradicting "on any failure ... no rule rows remain". -/
theorem C2_counterexample :
    (Reader.read [contentViolRule] ⟨[]⟩).1 = .error .contentViolation
    ∧ (Reader.read [contentViolRule] ⟨[]⟩).2.rules ≠ [] :=
  ⟨rfl, by decide⟩

/-- C2 (amended): failures raised before the rule rows are committed — a missing
tool during wrapper creation (and, per C6, a duplicated rule name) — leave the rule
table exactly as it was; but a content violation is only detected after
`session.add_all(set_wrapper); session.commit()`, so `read` raises while every rule
row of the definition stays committed. -/
theorem C2_amended_commit_then_content_check (defn : List RuleDefn) (db : WomDB) :
    ((defn.map (fun r => r.name)).Nodup →
      (∃ r ∈ defn, r.tool_exists = false) →
      (Reader.read defn db).1 = .error .toolNotFound
      ∧ (Reader.read defn db).2 = db)
    ∧ ((defn.map (fun r => r.name)).Nodup →
      (∀ r ∈ defn, r.tool_exists = true) →
      (∃ r ∈ defn, ToolWrapper.is_content_respected r = false) →
      (Reader.read defn db).1 = .error .contentViolation
      ∧ (Reader.read defn db).2.rules = db.rules ++ defn.map (fun r => r.name)) := by
  constructor
  · intro hnd htool
    rw [Reader.read]
    rw [check_duplicate_rules_ok _ _ hnd (by intro x _ hx; cases hx)]
    rw [bind_all_error _ htool]
    exact ⟨rfl, rfl⟩
  · intro hnd htool hcontent
    rw [Reader.read]
    rw [check_duplicate_rules_ok _ _ hnd (by intro x _ hx; cases hx)]
    rw [bind_all_ok _ htool]
    rw [check_content_all_error _ hcontent]
    exact ⟨rfl, rfl⟩

/-- Witness for C2 (amended), instantiating both parts: a missing tool leaves the
database untouched, while a content violation in a two-rule workflow leaves both
rule rows committed. -/
theorem C2_witness :
    ((Reader.read [missingToolRule] ⟨[]⟩).1 = .error .toolNotFound
      ∧ (Reader.read [missingToolRule] ⟨[]⟩).2 = ⟨[]⟩)
    ∧ ((Reader.read [okRuleDefn, contentViolRule] ⟨[]⟩).1 = .error .contentViolation
      ∧ (Reader.read [okRuleDefn, contentViolRule] ⟨[]⟩).2.rules = ["r0", "r1"]) := by
  constructor
  · exact (C2_amended_commit_then_content_check [missingToolRule] ⟨[]⟩).1
      (by decide) ⟨missingToolRule, by decide, by decide⟩
  · have h := (C2_amended_commit_then_content_check [okRuleDefn, contentViolRule]
      ⟨[]⟩).2 (by decide) (by decide) ⟨contentViolRule, by decide, by decide⟩
    exact ⟨h.1, by rw [h.2]; rfl⟩

/-- C3: `follows(self, other)` is `True` exactly when some output of `other` equals
some input of `self` — file against file by path equality (paths are absolutized
when the Reader binds them, so this is absolute-path equality), table against table
by model-identifier equality.  The predecessor relation is precisely this declared
I/O overlap. -/
theorem C3_follows_iff_io_overlap (self other : Rule) :
    Rule.follows self other = true ↔
      (∃ f ∈ self.files, f.type = "input"
        ∧ ∃ g ∈ other.files, g.type = "output" ∧ f.path = g.path)
      ∨ (∃ t ∈ self.tables, t.type = "input"
        ∧ ∃ u ∈ other.tables, u.type = "output" ∧ t.model = u.model) := by
  simp only [Rule.follows, Bool.or_eq_true, List.any_eq_true, List.mem_map,
    List.mem_filter, beq_iff_eq]
  constructor
  · rintro (⟨p, ⟨f, ⟨hf, hft⟩, rfl⟩, q, ⟨g, ⟨hg, hgt⟩, rfl⟩, hp⟩ |
            ⟨m, ⟨t, ⟨ht, htt⟩, rfl⟩, n, ⟨u, ⟨hu, hut⟩, rfl⟩, hm⟩)
    · exact Or.inl ⟨f, hf, hft, g, hg, hgt, hp⟩
    · exact Or.inr ⟨t, ht, htt, u, hu, hut, hm⟩
  · rintro (⟨f, hf, hft, g, hg, hgt, hp⟩ | ⟨t, ht, htt, u, hu, hut, hm⟩)
    · exact Or.inl ⟨f.path, ⟨f, ⟨hf, hft⟩, rfl⟩, g.path, ⟨g, ⟨hg, hgt⟩, rfl⟩, hp⟩
    · exact Or.inr ⟨t.model, ⟨t, ⟨ht, htt⟩, rfl⟩, u.model, ⟨u, ⟨hu, hut⟩, rfl⟩, hm⟩

/-- C4 counterexample: `option` on a name the rule does not declare returns `None`
normally instead of failing — `bareRule` declares no options, yet
`option("x")` is a normal `None` return and not an UndeclaredAccess error. -/
theorem C4_counterexample :
    Rule.option bareRule "x" = .ok none
    ∧ Rule.option bareRule "x" ≠ .error .undeclaredAccess :=
  ⟨rfl, fun h => by simp [Rule.option, bareRule] at h⟩

/-- C4 (amended): the four file/table accessors do fail with UndeclaredAccess on any
name the rule does not declare for the corresponding role, but `option` returns
`None` for an undeclared option name instead of raising. -/
theorem C4_amended_accessors_undeclared :
    (∀ (r : Rule) (key : String),
      (∀ f ∈ r.files, ¬(f.name = key ∧ f.type = "input")) →
      Rule.input_file r key = .error .undeclaredAccess)
    ∧ (∀ (r : Rule) (key : String),
      (∀ f ∈ r.files, ¬(f.name = key ∧ f.type = "output")) →
      Rule.output_file r key = .error .undeclaredAccess)
    ∧ (∀ (r : Rule) (key : String),
      (∀ t ∈ r.tables, ¬(t.tablename = key ∧ t.type = "input")) →
      Rule.input_table r key = .error .undeclaredAccess)
    ∧ (∀ (r : Rule) (key : String),
      (∀ t ∈ r.tables, ¬(t.tablename = key ∧ t.type = "output")) →
      Rule.output_table r key = .error .undeclaredAccess)
    ∧ (∀ (r : Rule) (key : String),
      (∀ o ∈ r.options, o.name ≠ key) →
      Rule.option r key = .ok none) := by
  refine ⟨?_, ?_, ?_, ?_, ?_⟩
  · intro r key h
    have hnil : r.files.filter (fun f => f.name == key && f.type == "input") = [] := by
      rw [List.filter_eq_nil_iff]
      intro f hf
      simp only [Bool.and_eq_true, beq_iff_eq, not_and]
      exact fun h1 h2 => h f hf ⟨h1, h2⟩
    simp [Rule.input_file, hnil]
  · intro r key h
    have hnil : r.files.filter (fun f => f.name == key && f.type == "output") = [] := by
      rw [List.filter_eq_nil_iff]
      intro f hf
      simp only [Bool.and_eq_true, beq_iff_eq, not_and]
      exact fun h1 h2 => h f hf ⟨h1, h2⟩
    simp [Rule.output_file, hnil]
  · intro r key h
    have hnil : r.tables.filter (fun t => t.tablename == key && t.type == "input") = [] := by
      rw [List.filter_eq_nil_iff]
      intro t ht
      simp only [Bool.and_eq_true, beq_iff_eq, not_and]
      exact fun h1 h2 => h t ht ⟨h1, h2⟩
    simp [Rule.input_table, hnil]
  · intro r key h
    have hnil : r.tables.filter (fun t => t.tablename == key && t.type == "output") = [] := by
      rw [List.filter_eq_nil_iff]
      intro t ht
      simp only [Bool.and_eq_true, beq_iff_eq, not_and]
      exact fun h1 h2 => h t ht ⟨h1, h2⟩
    simp [Rule.output_table, hnil]
  · intro r key h
    have hnil : r.options.filter (fun o => o.name == key) = [] := by
      rw [List.filter_eq_nil_iff]
      intro o ho
      simp only [beq_iff_eq]
      exact h o ho
    simp [Rule.option, hnil]

/-- Witness for C4 (amended) on `bareRule`, which declares nothing: all four
accessors raise UndeclaredAccess, `option` returns `None`. -/
theorem C4_witness :
    Rule.input_file bareRule "x" = .error .undeclaredAccess
    ∧ Rule.output_file bareRule "x" = .error .undeclaredAccess
    ∧ Rule.input_table bareRule "x" = .error .undeclaredAccess
    ∧ Rule.output_table bareRule "x" = .error .undeclaredAccess
    ∧ Rule.option bareRule "x" = .ok none :=
  ⟨C4_amended_accessors_undeclared.1 bareRule "x" (by simp [bareRule]),
   C4_amended_accessors_undeclared.2.1 bareRule "x" (by simp [bareRule]),
   C4_amended_accessors_undeclared.2.2.1 bareRule "x" (by simp [bareRule]),
   C4_amended_accessors_undeclared.2.2.2.1 bareRule "x" (by simp [bareRule]),
   C4_amended_accessors_undeclared.2.2.2.2 bareRule "x" (by simp [bareRule])⟩

/-- C5: the validator is NOT total over malformed input.  On a document whose rule
has an `input.tables` sequence containing a non-string entry and no previously
iterated `files` entry, the error path of the tables branch reads the never-assigned
`s_variable_name` and dies with `UnboundLocalError` — not a declared grammar error.
When a `files` entry was iterated first, the same malformed entry yields the
declared violation, isolating the unbound variable as the defect. -/
theorem C5_grammar_tables_branch_unbound_local :
    Reader.is_grammar_respected badTablesDoc = .error .unboundLocalError
    ∧ Reader.is_grammar_respected badTablesDoc ≠ .error .violation
    ∧ Reader.is_grammar_respected filesThenBadTablesDoc = .error .violation :=
  ⟨rfl, fun h => by
    rw [show Reader.is_grammar_respected badTablesDoc
        = Except.error GrammarErr.unboundLocalError from rfl] at h
    exact GrammarErr.noConfusion (Except.error.inj h), rfl⟩

/-- C6: whenever a rule name repeats in the definition, loading fails with the
DuplicateRule error and the database is untouched — `check_duplicate_rules` runs
first in `load_definition_file`, before any rule is bound or persisted. -/
theorem C6_duplicate_rule_aborts_before_binding (defn : List RuleDefn) (db : WomDB)
    (h : ¬ (defn.map (fun r => r.name)).Nodup) :
    (Reader.read defn db).1 = .error .duplicateRule
    ∧ (Reader.read defn db).2 = db := by
  rw [Reader.read]
  rw [check_duplicate_rules_error _ _ (Or.inl h)]
  exact ⟨rfl, rfl⟩

/-- Witness for C6: a definition repeating the rule name `r0` fails with
DuplicateRule and leaves the pre-existing database as it was. -/
theorem C6_witness :
    (Reader.read [okRuleDefn, okRuleDefn] ⟨["x"]⟩).1 = .error .duplicateRule
    ∧ (Reader.read [okRuleDefn, okRuleDefn] ⟨["x"]⟩).2 = ⟨["x"]⟩ :=
  C6_duplicate_rule_aborts_before_binding [okRuleDefn, okRuleDefn] ⟨["x"]⟩ (by decide)

/-- C7: `does_output_exist` is `True` exactly when every output file of the rule
exists on the filesystem and every output table has at least one row. -/
theorem C7_does_output_exist_iff (path_exists : String → Bool)
    (row_count : String → Nat) (r : Rule) :
    Rule.does_output_exist path_exists row_count r = true ↔
      (∀ f ∈ r.files, f.type = "output" → path_exists f.path = true)
      ∧ (∀ t ∈ r.tables, t.type = "output" → 1 ≤ row_count t.model) := by
  simp [Rule.does_output_exist, List.all_eq_true, List.mem_filter, beq_iff_eq,
    Nat.one_le_iff_ne_zero]
  constructor
  · rintro ⟨h1, h2⟩
    exact ⟨fun f hf ht => (h1 f hf).resolve_left (not_not_intro ht),
           fun t ht htt => (h2 t ht).resolve_left (not_not_intro htt)⟩
  · rintro ⟨h1, h2⟩
    exact ⟨fun f hf => or_iff_not_imp_left.mpr (fun hne => h1 f hf (not_not.mp hne)),
           fun t ht => or_iff_not_imp_left.mpr (fun hne => h2 t ht (not_not.mp hne))⟩

/-- C8 counterexample: with lookup field `a = 1` and defaults `a = 2`,
`get_or_create` is not idempotent — `params.update(defaults)` overrides the lookup
value, the created entity does not match the lookup, and the second call creates
again (`created = True` instead of the claimed `False`). -/
theorem C8_counterexample :
    (WopMarsSession.get_or_create ⟨[]⟩ "M" [("a", .lit 2)] [("a", .lit 1)]).1.2 = true
    ∧ (WopMarsSession.get_or_create
        (WopMarsSession.get_or_create ⟨[]⟩ "M" [("a", .lit 2)] [("a", .lit 1)]).2
        "M" [("a", .lit 2)] [("a", .lit 1)]).1.2 = true :=
  ⟨rfl, rfl⟩

/-- C8 (amended): `get_or_create` returns the matching entity with `created = False`
when one exists, otherwise creates the entity from the lookup fields updated with
the defaults and returns it with `created = True`; a second call with the same
lookup fields returns the same entity with `created = False` PROVIDED the lookup
values are no ClauseElements and the defaults agree with the lookup fields on every
shared key (in particular whenever their key sets are disjoint). -/
theorem C8_amended_get_or_create_idempotent (s : DBSession) (model : String)
    (defaults kwargs : List (String × PyVal))
    (hnd : (kwargs.map Prod.fst).Nodup)
    (hcl : ∀ kv ∈ kwargs, kv.2.isClauseElement = false)
    (hag : ∀ kv ∈ kwargs, ∀ v, defaults.lookup kv.1 = some v → v = kv.2) :
    WopMarsSession.get_or_create
        (WopMarsSession.get_or_create s model defaults kwargs).2 model defaults kwargs
      = (((WopMarsSession.get_or_create s model defaults kwargs).1.1, false),
         (WopMarsSession.get_or_create s model defaults kwargs).2) := by
  unfold WopMarsSession.get_or_create
  cases hh : (s.entities.filter (fun e => matchesLookup e model kwargs)).head? with
  | some e => simp only [hh]
  | none =>
    simp only [hh]
    have hnil : s.entities.filter (fun e => matchesLookup e model kwargs) = [] := by
      rwa [List.head?_eq_none_iff] at hh
    simp only [List.filter_append, hnil, List.nil_append]
    rw [show (List.filter (fun e => matchesLookup e model kwargs)
          [⟨model, dictUpdate (kwargs.filter (fun kv => !kv.2.isClauseElement)) defaults⟩])
        = [⟨model, dictUpdate (kwargs.filter (fun kv => !kv.2.isClauseElement)) defaults⟩] from by
      simp [List.filter, created_matches model defaults kwargs hnd hcl hag]]
    rfl

/-- Witness for C8 (amended): lookup `a = 1` with disjoint defaults `b = 2` on an
empty session — the second call returns the first call's entity, not created. -/
theorem C8_witness :
    WopMarsSession.get_or_create
        (WopMarsSession.get_or_create ⟨[]⟩ "M" [("b", .lit 2)] [("a", .lit 1)]).2
        "M" [("b", .lit 2)] [("a", .lit 1)]
      = (((WopMarsSession.get_or_create ⟨[]⟩ "M" [("b", .lit 2)] [("a", .lit 1)]).1.1,
          false),
         (WopMarsSession.get_or_create ⟨[]⟩ "M" [("b", .lit 2)] [("a", .lit 1)]).2) := by
  apply C8_amended_get_or_create_idempotent ⟨[]⟩ "M" [("b", .lit 2)] [("a", .lit 1)]
    (by decide) (by decide)
  intro kv hkv v hv
  have hkv1 : kv = ("a", PyVal.lit 1) := List.mem_singleton.mp hkv
  subst hkv1
  have hn : List.lookup ("a", PyVal.lit 1).1 [("b", PyVal.lit 2)] = none := by decide
  rw [hn] at hv
  cases hv

/-- C9: `same_tables(other, type_name)` holds exactly when every table of `self`
with that type can point at SOME table of `other` with that type — the inner
comprehension shadows the outer loop variable, so models and tablenames are only
compared with themselves and never across the two rules.  Consequently `__eq__`
holds between `tableRuleA` and `tableRuleB`, whose single tables differ in both
model and tablename. -/
theorem C9_same_tables_ignores_model_and_tablename :
    (∀ (self other : Rule) (type_name : String),
      Rule.same_tables self other type_name = true ↔
        (∀ t ∈ self.tables, t.type = type_name →
          ∃ u ∈ other.tables, u.type = type_name))
    ∧ (Rule.eqOp id tableRuleA tableRuleB = true
      ∧ tableRuleA.tables.map (fun t => t.model)
          ≠ tableRuleB.tables.map (fun t => t.model)
      ∧ tableRuleA.tables.map (fun t => t.tablename)
          ≠ tableRuleB.tables.map (fun t => t.tablename)) := by
  constructor
  · intro self other type_name
    simp [Rule.same_tables, List.all_eq_true, List.mem_filter, beq_iff_eq,
      List.isEmpty_iff, List.eq_nil_iff_forall_not_mem, List.filter_eq_nil_iff]
    constructor
    · intro h t ht htt
      exact (h t ht).resolve_left (not_not_intro htt)
    · intro h t ht
      exact or_iff_not_imp_left.mpr (fun hne => h t ht (not_not.mp hne))
  · exact ⟨rfl, by decide, by decide⟩

/-- C10: when the underlying ORM session has no new and no dirty objects,
`WopMarsSession.commit` is a no-op — the manager's lock-guarded commit never runs
and both the session and the manager state (database and commit count) are
unchanged. -/
theorem C10_commit_noop_when_session_clean (s : ORMSession) (m : SQLManagerState)
    (h1 : s.new = []) (h2 : s.dirty = []) :
    WopMarsSession.commit s m = (s, m) := by
  unfold WopMarsSession.commit WopMarsSession.something
  rw [h1, h2]
  simp

/-- Witness for C10 on the empty session over a fresh manager. -/
theorem C10_witness :
    WopMarsSession.commit ⟨[], []⟩ ⟨[], 0⟩ = (⟨[], []⟩, ⟨[], 0⟩) :=
  C10_commit_noop_when_session_clean ⟨[], []⟩ ⟨[], 0⟩ rfl rfl

end WopMars
